import Mathlib

/-!
Shallow embedding of the grindhousebot signal core in Lean 4, for checking the
natural-language specification against the code.

Sources embedded (translated from the repository sources, structure-faithfully):
  * `src/utils/models.py` — `SignalType`, `StrategyType`, `Signal`, `PriceData`,
    `SignalData`;
  * `src/handlers/signal_handler.py` — `SignalHandler.__init__`,
    `SignalHandler.aggregate_signals`, `SignalHandler._create_aggregated_signal`;
  * `src/handlers/price_handler.py` — `PriceHandler.handle_price_update`,
    `PriceHandler._check_signals`, `PriceHandler._check_symbols`,
    `PriceHandler._initialize_symbol_data` (deque of maxlen 150);
  * `src/strategies/base.py` — `SignalStrategy.generate_signals`,
    `SignalStrategy.process`;
  * `src/strategies/rsi_strategy.py` — `RSIStrategy.analyze_market` call path;
  * `src/clients/bybit_ws.py` — `BybitWsClient._process_messages`,
    `BybitWsClient.subscribe`.

Python floats are modelled by `ℚ` (all constants appearing in the embedded
computations — strategy weights such as 0.8, the 0.7 threshold, and quotients
of sums of such weights — are exact in binary-or-decimal-safe arithmetic at the
points the theorems evaluate them; in particular `x / x = 1` holds exactly for
IEEE doubles as it does in `ℚ`). Python dicts that the embedded code only
iterates over or indexes are modelled as association lists in insertion order,
matching CPython's guaranteed dict iteration order. Python exceptions are made
explicit with `Except`/`Option`.
-/

/-- `SignalType` enum from `src/utils/models.py` (BUY = "buy", SELL = "sell"). -/
inductive SignalType where
  | buy
  | sell
deriving DecidableEq, Repr

/-- `StrategyType` enum from `src/utils/models.py`. -/
inductive StrategyType where
  | rsi
  | macd
  | bollinger
  | ichimoku
  | harmonic
  | volumeProfile
  | all
deriving DecidableEq, Repr

/-- The `value` field of `Signal`/`SignalData` is `Union[float, str]`
(`src/utils/models.py`). -/
inductive SigValue where
  | num (q : ℚ)
  | str (s : String)
deriving DecidableEq, Repr

/-- `Signal` frozen dataclass from `src/utils/models.py` lines 25–31: exactly
three fields `name`, `type`, `value`. -/
structure Signal where
  name : String
  type : SignalType
  value : SigValue
deriving DecidableEq, Repr

/-- `PriceData` dataclass from `src/utils/models.py`.  The `open` field is
renamed `open_` because `open` is a Lean keyword. -/
structure PriceData where
  symbol : String
  timestamp : Int
  open_ : ℚ
  high : ℚ
  low : ℚ
  close : ℚ
  volume : ℚ
  turnover : ℚ
deriving DecidableEq, Repr

/-- `SignalData` pydantic model from `src/utils/models.py` lines 80–87.  Its
fields are exactly `symbol`, `strategy`, `signal_type`, `value`, `timestamp`,
`price`; it carries no confidence field. -/
structure SignalData where
  symbol : String
  strategy : StrategyType
  signal_type : SignalType
  value : SigValue
  timestamp : Int
  price : ℚ
deriving DecidableEq, Repr

/-- `AggregatedSignal` dataclass from `src/handlers/signal_handler.py`. -/
structure AggregatedSignal where
  symbol : String
  signal_type : SignalType
  confidence : ℚ
  price : ℚ
  timestamp : Int
  supporting_signals : List SignalData
  analysis : String
deriving DecidableEq, Repr

/-- `self.confidence_weights` with the `.get(signal.strategy, 0.5)` default,
from `SignalHandler.__init__` (`src/handlers/signal_handler.py` lines 34–40):
RSI 0.8, MACD 0.7, BOLLINGER 0.75, ICHIMOKU 0.85, VOLUME_PROFILE 0.6, any
other strategy kind (HARMONIC, ALL) falls back to the default 0.5. -/
def confidenceWeight : StrategyType → ℚ
  | StrategyType.rsi => 8/10
  | StrategyType.macd => 7/10
  | StrategyType.bollinger => 75/100
  | StrategyType.ichimoku => 85/100
  | StrategyType.volumeProfile => 6/10
  | _ => 5/10

/-- `self.min_confidence_threshold = 0.7` (`src/handlers/signal_handler.py`
line 41). -/
def minConfidenceThreshold : ℚ := 7/10

/-- Python `max(signals, key=lambda x: x.timestamp)`: first element of maximal
timestamp (CPython `max` keeps the earliest of equals). -/
def latestByTimestamp (s : SignalData) (rest : List SignalData) : SignalData :=
  rest.foldl (fun best x => if best.timestamp < x.timestamp then x else best) s

/-- `SignalHandler._create_aggregated_signal` (`src/handlers/signal_handler.py`
lines 84–118), translated line by line.  Note that the source accumulates
`weighted_confidence += weight` — the weight itself, not a weight times any
member confidence (no member confidence exists on `SignalData`) — so
`confidence = weighted_confidence / total_weight` divides a sum by itself. -/
def createAggregatedSignal (signals : List SignalData) (signal_type : SignalType) :
    Option AggregatedSignal :=
  match signals with
  | [] => none
  | s :: rest =>
    let total_weight : ℚ := (signals.map (fun sig => confidenceWeight sig.strategy)).sum
    let weighted_confidence : ℚ := (signals.map (fun sig => confidenceWeight sig.strategy)).sum
    if total_weight = 0 then none
    else
      let confidence := weighted_confidence / total_weight
      if confidence < minConfidenceThreshold then none
      else
        let latest := latestByTimestamp s rest
        some { symbol := latest.symbol
               signal_type := signal_type
               confidence := confidence
               price := latest.price
               timestamp := latest.timestamp
               supporting_signals := signals
               analysis := "" }

/-- One iteration of the symbol loop in `SignalHandler.aggregate_signals`
(`src/handlers/signal_handler.py` lines 55–79): skip empty per-strategy maps,
split into a BUY list and a SELL list (the `else` branch of the two-variant
enum), aggregate the BUY group then the SELL group, appending each produced
signal. -/
def aggregateSymbol (strategy_signals : List (StrategyType × SignalData)) :
    List AggregatedSignal :=
  match strategy_signals with
  | [] => []
  | _ =>
    let buy_signals := (strategy_signals.filter
      (fun p => p.2.signal_type = SignalType.buy)).map Prod.snd
    let sell_signals := (strategy_signals.filter
      (fun p => ¬ p.2.signal_type = SignalType.buy)).map Prod.snd
    let fromBuy :=
      match createAggregatedSignal buy_signals SignalType.buy with
      | some a => [a]
      | none => []
    let fromSell :=
      match createAggregatedSignal sell_signals SignalType.sell with
      | some a => [a]
      | none => []
    fromBuy ++ fromSell

/-- The collection phase of `aggregate_signals`: iterate the symbol map in
insertion order, appending each symbol's aggregated signals. -/
def aggregateCore : List (String × List (StrategyType × SignalData)) →
    List AggregatedSignal
  | [] => []
  | (_, strategy_signals) :: rest => aggregateSymbol strategy_signals ++ aggregateCore rest

/-- Stable insertion of one element into a list sorted descending by
confidence: the element passes over exactly the elements of strictly greater
confidence, so among equal confidences an earlier element of the build order
stays first — the ordering `sorted(key=..., reverse=True)` produces
(CPython's sort is stable). -/
def insertDescConf (a : AggregatedSignal) : List AggregatedSignal → List AggregatedSignal
  | [] => [a]
  | b :: rest => if a.confidence < b.confidence then b :: insertDescConf a rest
                 else a :: b :: rest

/-- Stable sort by `confidence` descending, the
`sorted(aggregated_signals, key=lambda x: x.confidence, reverse=True)` of
`src/handlers/signal_handler.py` line 82. -/
def sortDescConf : List AggregatedSignal → List AggregatedSignal
  | [] => []
  | a :: rest => insertDescConf a (sortDescConf rest)

/-- `SignalHandler.aggregate_signals` (`src/handlers/signal_handler.py`
lines 43–82): collect per-symbol aggregated signals, then return them sorted
by confidence descending.  The function returns the full sorted list; no
truncation is applied. -/
def aggregateSignals (signals : List (String × List (StrategyType × SignalData))) :
    List AggregatedSignal :=
  sortDescConf (aggregateCore signals)

/-! ## Association-list model of Python dicts

Python dicts preserve insertion order; `d[k] = v` replaces an existing entry
in place and otherwise appends, `d.pop(k, None)` removes the entry, and
membership/indexing are by key. -/

/-- Dict indexing `d.get(k)` / `k in d` on an insertion-ordered
association list. -/
def alookup {κ β : Type} [DecidableEq κ] : List (κ × β) → κ → Option β
  | [], _ => none
  | (k2, v) :: rest, k => if k2 = k then some v else alookup rest k

/-- Dict assignment `d[k] = v`: replace in place if the key exists, else
append at the end (CPython insertion-order semantics). -/
def dictSet {κ β : Type} [DecidableEq κ] (xs : List (κ × β)) (k : κ) (v : β) :
    List (κ × β) :=
  if (alookup xs k).isSome then
    xs.map (fun p => if p.1 = k then (k, v) else p)
  else xs ++ [(k, v)]

/-- Dict removal `d.pop(k, None)`. -/
def aremove {κ β : Type} [DecidableEq κ] (xs : List (κ × β)) (k : κ) :
    List (κ × β) :=
  xs.filter (fun p => ¬ p.1 = k)

/-- Set insertion `s.add(x)` on a duplicate-free list model of a Python set. -/
def setAdd {κ : Type} [DecidableEq κ] (xs : List κ) (x : κ) : List κ :=
  if x ∈ xs then xs else xs ++ [x]

/-- Append to a `collections.deque` of capacity `cap` (`maxlen=cap`): the new
element goes at the right and elements are discarded from the left down to the
capacity. -/
def dequeAppend {α : Type} (cap : Nat) (xs : List α) (x : α) : List α :=
  let ys := xs ++ [x]
  ys.drop (ys.length - cap)

/-- Construction `deque(iterable, maxlen=cap)`: keeps the last `cap` elements
of the iterable. -/
def dequeInit {α : Type} (cap : Nat) (xs : List α) : List α :=
  xs.drop (xs.length - cap)

/-! ## PriceHandler (`src/handlers/price_handler.py`) -/

/-- One confirmed-kline record of the inbound WebSocket payload
(`data[0]` in `PriceHandler.handle_price_update`): fields `start`, OHLCV,
`turnover` and the `confirm` flag (§6 of the spec; `candle["start"]`,
`candle.get('confirm', False)` in the source). -/
structure Candle where
  start : Int
  open_ : ℚ
  high : ℚ
  low : ℚ
  close : ℚ
  volume : ℚ
  turnover : ℚ
  confirm : Bool
deriving DecidableEq, Repr

/-- One row of a strategy DataFrame: the columns produced by
`PriceData.to_dict` (`src/utils/models.py` lines 45–53) — open, high, low,
close, volume; `turnover` is dropped there. -/
structure Row where
  open_ : ℚ
  high : ℚ
  low : ℚ
  close : ℚ
  volume : ℚ
deriving DecidableEq, Repr

/-- `PriceData.to_dict` from `src/utils/models.py`. -/
def PriceData.toRow (p : PriceData) : Row :=
  { open_ := p.open_, high := p.high, low := p.low, close := p.close,
    volume := p.volume }

/-- The `PriceHandler` mutable state (`src/handlers/price_handler.py`
lines 37–51): `symbols` (a set), `price_data` (symbol → deque of maxlen 150),
`signals` (symbol → strategy → SignalData), `_updated_symbols` (a set),
`_current_candle_time`, and the per-strategy-instance `dataframes`
(strategy → symbol → DataFrame indexed by timestamp).  `FIXED_WINDOW_SIZE`
is 150 (line 19). -/
structure PHState where
  symbols : List String
  priceData : List (String × List PriceData)
  signals : List (String × List (StrategyType × SignalData))
  updatedSymbols : List String
  currentCandleTime : Option Int
  dataframes : List (StrategyType × List (String × List (Int × Row)))
deriving DecidableEq, Repr

/-- `PriceHandler._check_signals` (`src/handlers/price_handler.py`
lines 242–271), with the strategy evaluation
`strategy.generate_signals({symbol: latest_price}).get(symbol)` abstracted as
the parameter `gen` (the strategies are a pluggable, per-configuration set;
their internals are embedded separately for the strategy claims).  A strategy
returning a `Signal` is stored as a `SignalData` built exactly as in the
source — value and type from the signal, timestamp and price from the latest
candle; a strategy returning nothing (or raising — the per-strategy
`try`/`except` at lines 249–271) leaves `signals` untouched for that
strategy. -/
def checkSignals (strats : List StrategyType)
    (gen : StrategyType → String → PriceData → Option Signal)
    (signals : List (String × List (StrategyType × SignalData)))
    (symbol : String) (latest : PriceData) :
    List (String × List (StrategyType × SignalData)) :=
  strats.foldl (fun sigs strategy_type =>
    match gen strategy_type symbol latest with
    | some signal =>
      let signal_data : SignalData :=
        { symbol := symbol, strategy := strategy_type,
          signal_type := signal.type, value := signal.value,
          timestamp := latest.timestamp, price := latest.close }
      dictSet sigs symbol
        (dictSet ((alookup sigs symbol).getD []) strategy_type signal_data)
    | none => sigs) signals

/-- The `PriceData` built from a confirmed candle in `handle_price_update`
(`src/handlers/price_handler.py` lines 198–207): the timestamp is
`candle["start"]`. -/
def newPriceOf (symbol : String) (candle : Candle) : PriceData :=
  { symbol := symbol, timestamp := candle.start, open_ := candle.open_,
    high := candle.high, low := candle.low, close := candle.close,
    volume := candle.volume, turnover := candle.turnover }

/-- The round-tracking reset of `handle_price_update`
(`src/handlers/price_handler.py` lines 191–195): whenever the candle start
time differs from `_current_candle_time` — newer or older — the tracked time
is replaced and both `_updated_symbols` and `signals` are cleared. -/
def roundReset (s : PHState) (candle_time : Int) : PHState :=
  if ¬ s.currentCandleTime = some candle_time then
    { s with currentCandleTime := some candle_time,
             updatedSymbols := [], signals := [] }
  else s

/-- The price-history update of `handle_price_update`
(`src/handlers/price_handler.py` lines 209–212): if the symbol has a deque,
the new price is appended to it unconditionally (the deque has
`maxlen = 150`); no comparison against the stored maximum timestamp is
made. -/
def appendPrice (s : PHState) (symbol : String) (new_price : PriceData) : PHState :=
  match alookup s.priceData symbol with
  | some d =>
    { s with priceData := dictSet s.priceData symbol (dequeAppend 150 d new_price) }
  | none => s

/-- The per-strategy DataFrame update of `handle_price_update`
(`src/handlers/price_handler.py` lines 214–225): append the new row and keep
the last `FIXED_WINDOW_SIZE = 150` rows. -/
def updateStrategyFrames (s : PHState) (new_price : PriceData) (symbol : String) :
    PHState :=
  { s with dataframes := s.dataframes.map (fun inst =>
      (inst.1,
       match alookup inst.2 symbol with
       | some df =>
         let df2 := df ++ [(new_price.timestamp, new_price.toRow)]
         let df3 := if 150 < df2.length then df2.drop (df2.length - 150) else df2
         dictSet inst.2 symbol df3
       | none => inst.2)) }

/-- The `_check_signals` guard of `handle_price_update`
(`src/handlers/price_handler.py` lines 227–229): once the symbol's deque
holds at least 2 candles, `_check_signals` runs with `latest_price` the last
deque element. -/
def runChecks (strats : List StrategyType)
    (gen : StrategyType → String → PriceData → Option Signal)
    (s : PHState) (symbol : String) (d : List PriceData) : PHState :=
  if 2 ≤ d.length then
    match d.getLast? with
    | some latest =>
      { s with signals := checkSignals strats gen s.signals symbol latest }
    | none => s
  else s

/-- The round-completion tail of `handle_price_update`
(`src/handlers/price_handler.py` lines 231–237): add the symbol to
`_updated_symbols`; when the updated set covers every tracked symbol, emit the
aggregated signals and clear it. -/
def emitStep (s4 : PHState) (symbol : String) :
    PHState × Option (List AggregatedSignal) :=
  let s5 := { s4 with updatedSymbols := setAdd s4.updatedSymbols symbol }
  if s5.updatedSymbols.length = s5.symbols.length then
    ({ s5 with updatedSymbols := [] }, some (aggregateSignals s5.signals))
  else (s5, none)

/-- The tail of `handle_price_update` (`src/handlers/price_handler.py`
lines 227–237): the signal check followed by the round-completion step.  A
missing `price_data` entry raises `KeyError` at
`len(self.price_data[symbol])`, caught by the outer `except`
(lines 239–240), leaving the mutations made so far in place. -/
def signalsAndEmit (strats : List StrategyType)
    (gen : StrategyType → String → PriceData → Option Signal)
    (s : PHState) (symbol : String) : PHState × Option (List AggregatedSignal) :=
  match alookup s.priceData symbol with
  | none => (s, none)
  | some d => emitStep (runChecks strats gen s symbol d) symbol

/-- `PriceHandler.handle_price_update` (`src/handlers/price_handler.py`
lines 167–240), as a state transition returning the new state and the batch of
aggregated signals emitted by `_process_aggregated_signals` (if the round
completed).  Control flow mirrors the source top to bottom: untracked symbol /
empty data / unconfirmed candle return unchanged; then the round-tracking
reset, the unconditional deque append, the strategy-frame update, and the
signal-check/round-completion tail, in source order. -/
def handlePriceUpdate (strats : List StrategyType)
    (gen : StrategyType → String → PriceData → Option Signal)
    (s : PHState) (data : List Candle) (symbol : String) :
    PHState × Option (List AggregatedSignal) :=
  if ¬ symbol ∈ s.symbols then (s, none)
  else match data with
  | [] => (s, none)
  | candle :: _ =>
    if ¬ candle.confirm then (s, none)
    else
      let s1 := roundReset s candle.start
      let new_price := newPriceOf symbol candle
      let s2 := appendPrice s1 symbol new_price
      let s3 := updateStrategyFrames s2 new_price symbol
      signalsAndEmit strats gen s3 symbol

/-- `PriceHandler._initialize_symbol_data` (`src/handlers/price_handler.py`
lines 129–165): fetch up to 150 klines (here the parameter `klines`; `none`
models the `except` path where nothing is mutated), build the deque with
`maxlen=150`, register the symbol, and seed each strategy DataFrame that does
not already have the symbol. -/
def initializeSymbolData (s : PHState) (symbol : String)
    (klines : Option (List PriceData)) : PHState :=
  match klines with
  | none => s
  | some ks =>
    let price_deque := dequeInit 150 ks
    let s1 := { s with symbols := setAdd s.symbols symbol,
                       priceData := dictSet s.priceData symbol price_deque }
    { s1 with dataframes := s1.dataframes.map (fun inst =>
        (inst.1,
         match alookup inst.2 symbol with
         | some _ => inst.2
         | none => dictSet inst.2 symbol
             (price_deque.map (fun p => (p.timestamp, p.toRow))))) }

/-- One pass of the hourly body of `PriceHandler._check_symbols`
(`src/handlers/price_handler.py` lines 294–315): compute the newly listed and
delisted symbol sets against the fetched `current` universe, initialize data
for the new symbols, and for each delisted symbol remove it from `symbols` and
drop its `price_data`, `signals` and per-strategy DataFrame entries.  Nothing
else is touched: in particular the method never references the WebSocket
client (the `PriceHandler` holds no reference to it), so no topic is
unsubscribed and `_updated_symbols` is not pruned. -/
def checkSymbolsPass (s : PHState) (current : List String)
    (backfill : String → Option (List PriceData)) : PHState :=
  let new_symbols := current.filter (fun c => ¬ c ∈ s.symbols)
  let delisted_symbols := s.symbols.filter (fun c => ¬ c ∈ current)
  let s1 := new_symbols.foldl
    (fun acc sym => initializeSymbolData acc sym (backfill sym)) s
  delisted_symbols.foldl (fun acc sym =>
    { acc with symbols := acc.symbols.filter (fun x => ¬ x = sym),
               priceData := aremove acc.priceData sym,
               signals := aremove acc.signals sym,
               dataframes := acc.dataframes.map (fun inst => (inst.1, aremove inst.2 sym)) }) s1

/-! ## Stream transport (`src/clients/bybit_ws.py`) -/

/-- One entry of `BybitWsClient.subscriptions` (`src/clients/bybit_ws.py`
lines 105–108): the topic list and the owning handler, the latter modelled by
an identity. -/
structure SubGroup where
  topics : List String
  handlerId : Nat
deriving DecidableEq, Repr

/-- Combined system state for claims spanning the handler and the transport:
the `PriceHandler` state plus the transport's registered subscription
groups. -/
structure SysState where
  ph : PHState
  subscriptions : List SubGroup
deriving DecidableEq, Repr

/-- System-level view of one `_check_symbols` pass: the handler state is
reconciled; the transport's subscription list is untouched because the method
body (`src/handlers/price_handler.py` lines 289–318) never refers to the
WebSocket client. -/
def checkSymbolsSys (sys : SysState) (current : List String)
    (backfill : String → Option (List PriceData)) : SysState :=
  { ph := checkSymbolsPass sys.ph current backfill,
    subscriptions := sys.subscriptions }

/-- Observable actions of the transport receive loop: outbound control frames
(`websocket.send` of an op with args) and the dispatch of a data frame to a
registered handler (`asyncio.create_task(sub['handler'].handle_price_update(...))`). -/
inductive WsAction where
  | send (op : String) (args : List String)
  | route (topic : String) (handlerId : Nat)
deriving DecidableEq, Repr

/-- Decoded inbound frames as the loop body distinguishes them
(`src/clients/bybit_ws.py` lines 62–83): a status/acknowledgement message
(any JSON with a `success` key — skipped), a data message (JSON with `topic`
and `data` keys), or a malformed frame (`json.JSONDecodeError` — skipped). -/
inductive InMsg where
  | status
  | dataMsg (topic : String)
  | malformed
deriving DecidableEq, Repr

/-- Handling of one inbound frame by the receive loop
(`src/clients/bybit_ws.py` lines 62–83): status and malformed frames produce
nothing; a data frame is routed to every subscription group whose topic list
contains its topic. -/
def handleMessage (subs : List SubGroup) : InMsg → List WsAction
  | InMsg.status => []
  | InMsg.malformed => []
  | InMsg.dataMsg topic =>
    (subs.filter (fun g => topic ∈ g.topics)).map
      (fun g => WsAction.route topic g.handlerId)

/-- Outbound control frames sent by `_process_messages` between establishing a
(re)connection and entering the message loop (`src/clients/bybit_ws.py`
lines 46–57): the body only stores the socket and logs — it sends nothing; in
particular no subscribe frame is issued for the groups kept in
`self.subscriptions`. -/
def reconnectSends : List WsAction := []

/-- One reconnect iteration of `_process_messages`
(`src/clients/bybit_ws.py` lines 44–90): after the backoff sleep the
connection is re-established (sending `reconnectSends`, i.e. nothing) and the
loop then processes the incoming frames in order. -/
def reconnectIteration (subs : List SubGroup) (incoming : List InMsg) :
    List WsAction :=
  reconnectSends ++ incoming.flatMap (handleMessage subs)

/-- `BybitWsClient.subscribe` (`src/clients/bybit_ws.py` lines 94–121):
register the topic group, and send one subscribe control frame only when a
connection is currently active. -/
def wsSubscribe (subs : List SubGroup) (topics : List String) (hid : Nat)
    (connected : Bool) : List SubGroup × List WsAction :=
  (subs ++ [{ topics := topics, handlerId := hid }],
   if connected then [WsAction.send "subscribe" topics] else [])

/-- Actions of a trace that are subscribe/unsubscribe control frames. -/
def isSendAction : WsAction → Bool
  | WsAction.send _ _ => true
  | WsAction.route _ _ => false

/-- Actions of a trace that are data-frame dispatches to a handler. -/
def isRouteAction : WsAction → Bool
  | WsAction.send _ _ => false
  | WsAction.route _ _ => true

/-- The control frames a trace sends before its first data-frame dispatch. -/
def sendsBeforeFirstRoute (acts : List WsAction) : List WsAction :=
  (acts.takeWhile (fun a => ¬ isRouteAction a)).filter isSendAction

/-! ## Strategy engine (`src/strategies/base.py`, `src/strategies/rsi_strategy.py`) -/

/-- Python exceptions relevant to the embedded paths. -/
inductive PyExc where
  | typeError
deriving DecidableEq, Repr

/-- Dynamic values passed positionally when constructing a `Signal`. -/
inductive PyVal where
  | vstr (s : String)
  | vsigty (t : SignalType)
  | vnum (q : ℚ)
deriving DecidableEq, Repr

/-- CPython construction of the frozen dataclass `Signal`
(`src/utils/models.py` lines 25–31, exactly three positional fields
`name`, `type`, `value`) from a positional argument list: any other arity
raises `TypeError`.  The `type` field is annotated `str` in the source and
holds a `SignalType` value (a `str` subclass) wherever the strategies build
one, so it is modelled as `SignalType`. -/
def constructSignal : List PyVal → Except PyExc Signal
  | [PyVal.vstr n, PyVal.vsigty t, PyVal.vnum q] =>
    Except.ok { name := n, type := t, value := SigValue.num q }
  | [PyVal.vstr n, PyVal.vsigty t, PyVal.vstr sv] =>
    Except.ok { name := n, type := t, value := SigValue.str sv }
  | _ => Except.error PyExc.typeError

/-- Number of parameters (beside `self`) that `RSIStrategy.analyze_market`
declares: one, `rsi_values` (`src/strategies/rsi_strategy.py` line 51). -/
def rsiAnalyzeMarketParamCount : Nat := 1

/-- Number of positional arguments `SignalStrategy.process` passes to
`self.analyze_market`: two, `df` and `indicator_value`
(`src/strategies/base.py` line 265, matching the abstract declaration at
line 233). -/
def processAnalyzeMarketArgCount : Nat := 2

/-- Body of `RSIStrategy.analyze_market` (`src/strategies/rsi_strategy.py`
lines 51–145), translated line by line on the `(current_rsi, prev_rsi)`
tuple.  Both signal branches execute
`Signal('rsi', SignalType, current_rsi, final_confidence)` — four positional
arguments against the three-field dataclass — so `constructSignal` raises
`TypeError`, which the function's own `except` (lines 143–145) converts to
`None`. -/
def rsiAnalyzeMarketBody (rsi_values : ℚ × ℚ) : Option Signal :=
  let current_rsi := rsi_values.1
  let prev_rsi := rsi_values.2
  let rsi_momentum := current_rsi - prev_rsi
  if current_rsi < 30 then
    let base_confidence := min ((30 - current_rsi) / 20) 1
    let momentum_factor :=
      if rsi_momentum < 0 then max (1 + rsi_momentum / 10) (1/2)
      else min (1 + rsi_momentum / 20) (12/10)
    let extreme_factor := if current_rsi < 20 then 11/10 else 1
    let final_confidence :=
      (min (base_confidence * (6/10) + momentum_factor * (4/10)) 1) * extreme_factor
    match constructSignal [PyVal.vstr "rsi", PyVal.vsigty SignalType.buy,
        PyVal.vnum current_rsi, PyVal.vnum final_confidence] with
    | Except.ok sig => some sig
    | Except.error _ => none
  else if 70 < current_rsi then
    let base_confidence := min ((current_rsi - 70) / 20) 1
    let momentum_factor :=
      if 0 < rsi_momentum then max (1 - rsi_momentum / 10) (1/2)
      else min (1 - rsi_momentum / 20) (12/10)
    let extreme_factor := if 80 < current_rsi then 11/10 else 1
    let final_confidence :=
      (min (base_confidence * (6/10) + momentum_factor * (4/10)) 1) * extreme_factor
    match constructSignal [PyVal.vstr "rsi", PyVal.vsigty SignalType.sell,
        PyVal.vnum current_rsi, PyVal.vnum final_confidence] with
    | Except.ok sig => some sig
    | Except.error _ => none
  else none

/-- CPython call of `RSIStrategy.analyze_market` with `argCount` positional
arguments: the body runs only when the arity matches its single declared
parameter; otherwise `TypeError` is raised before the body. -/
def callRsiAnalyzeMarket (argCount : Nat) (rsi_values : ℚ × ℚ) :
    Except PyExc (Option Signal) :=
  if argCount = rsiAnalyzeMarketParamCount then
    Except.ok (rsiAnalyzeMarketBody rsi_values)
  else Except.error PyExc.typeError

/-- `SignalStrategy.process` (`src/strategies/base.py` lines 246–270)
specialized to the RSI strategy, from the indicator result onward: a `None`
indicator returns `None` (lines 260–262); otherwise `analyze_market` is
invoked with two positional arguments (line 265) and any exception is caught
by the surrounding `try`, logging and returning `None` (lines 267–270). -/
def rsiProcessFromIndicator : Option (ℚ × ℚ) → Option Signal
  | none => none
  | some rsi_values =>
    match callRsiAnalyzeMarket processAnalyzeMarketArgCount rsi_values with
    | Except.ok s => s
    | Except.error _ => none

/-- Duplicate-index test `df.index.duplicated().any()` on a DataFrame
modelled as an index-ordered list of rows. -/
def hasDupKeys : List (Int × Row) → Bool
  | [] => false
  | p :: rest => rest.any (fun q => q.1 = p.1) || hasDupKeys rest

/-- Pandas `df[~df.index.duplicated(keep='last')]`: keep the last occurrence
of every index value, in last-occurrence order. -/
def dedupKeepLast (xs : List (Int × Row)) : List (Int × Row) :=
  xs.foldl (fun acc p => acc.filter (fun q => ¬ q.1 = p.1) ++ [p]) []

/-- Stable insertion for `sort_index()` (ascending by index). -/
def insertAscKey (p : Int × Row) : List (Int × Row) → List (Int × Row)
  | [] => [p]
  | q :: rest => if q.1 ≤ p.1 then q :: insertAscKey p rest else p :: q :: rest

/-- Pandas `sort_index()`: stable ascending sort by index. -/
def sortAscKey : List (Int × Row) → List (Int × Row)
  | [] => []
  | p :: rest => insertAscKey p (sortAscKey rest)

/-- The DataFrame update of `SignalStrategy.generate_signals`
(`src/strategies/base.py` lines 57–76): when the frame has reached the window
capacity, keep the last `window - 1` rows and append the new row, otherwise
just append; then, only if duplicate index values exist, drop all but the
last occurrence of each and sort by index.  The capacities used by the
program are 100 and 150. -/
def updateFrame (window : Nat) (df : List (Int × Row)) (t : Int) (r : Row) :
    List (Int × Row) :=
  let df2 := if window ≤ df.length then df.drop (df.length - (window - 1)) ++ [(t, r)]
             else df ++ [(t, r)]
  if hasDupKeys df2 then sortAscKey (dedupKeepLast df2) else df2

/-- The stored frame for a symbol after `generate_signals` incorporates the
incoming price: a fresh single-row frame when the symbol was unknown
(`src/strategies/base.py` lines 54–56), otherwise `updateFrame`. -/
def generatedFrame (window : Nat) (stored : Option (List (Int × Row)))
    (t : Int) (r : Row) : List (Int × Row) :=
  match stored with
  | none => [(t, r)]
  | some df0 => updateFrame window df0 t r

/-- `SignalStrategy.generate_signals` for one symbol
(`src/strategies/base.py` lines 43–89), with the strategy-specific
`process` abstracted as a fallible function of the updated frame (the
concrete `process` bodies are behind the abstract hooks
`calculate_indicator`/`analyze_market`).  After the frame update, a signal is
computed only when the frame holds at least `min_candles` rows (line 79);
otherwise the result is absent (lines 81–83).  Any exception from `process`
is caught (`process` itself catches at `src/strategies/base.py` lines
267–270, and `generate_signals` again at lines 85–87) and yields absent.
Returns the updated stored frame and the optional signal. -/
def generateSignal (min_candles window : Nat)
    (proc : List (Int × Row) → Except PyExc (Option Signal))
    (stored : Option (List (Int × Row))) (t : Int) (r : Row) :
    List (Int × Row) × Option Signal :=
  let df := generatedFrame window stored t r
  if min_candles ≤ df.length then
    match proc df with
    | Except.ok s => (df, s)
    | Except.error _ => (df, none)
  else (df, none)

/-- `RSIStrategy.min_candles` (`src/strategies/rsi_strategy.py`
lines 22–25). -/
def rsiMinCandles : Nat := 15

/-! ## Concrete fixtures used by the closed theorems -/

/-- A sample price point with all prices 1 for the symbol "XUSDT". -/
def samplePrice (ts : Int) : PriceData :=
  { symbol := "XUSDT", timestamp := ts, open_ := 1, high := 1, low := 1,
    close := 1, volume := 1, turnover := 1 }

/-- A sample confirmed candle with all prices 1. -/
def sampleCandle (ts : Int) : Candle :=
  { start := ts, open_ := 1, high := 1, low := 1, close := 1, volume := 1,
    turnover := 1, confirm := true }

/-- A sample stored signal for the symbol "XUSDT". -/
def sampleSig (st : StrategyType) (ty : SignalType) (ts : Int) : SignalData :=
  { symbol := "XUSDT", strategy := st, signal_type := ty,
    value := SigValue.num 0, timestamp := ts, price := 25 }

/-- A sample DataFrame row with all columns 1. -/
def sampleRow : Row :=
  { open_ := 1, high := 1, low := 1, close := 1, volume := 1 }

/-- A strategy evaluation that never produces a signal (used to instantiate
the abstracted strategy set in concrete runs). -/
def genNone : StrategyType → String → PriceData → Option Signal :=
  fun _ _ _ => none

/-- A distinct symbol name of each positive length ("a", "aa", ...). -/
def symbolOfLength (n : Nat) : String :=
  String.mk (List.replicate n 'a')

/-- An input map holding `n` distinct symbols, each carrying a single BUY
signal from the RSI strategy (used to show the aggregate output is unbounded). -/
def manyBuyInput : Nat → List (String × List (StrategyType × SignalData))
  | 0 => []
  | n + 1 =>
    (symbolOfLength (n + 1), [(StrategyType.rsi, sampleSig StrategyType.rsi SignalType.buy 0)])
      :: manyBuyInput n

/-- Input of the two-strategies-disagree scenario: one symbol with an RSI BUY
signal and a MACD SELL signal in the same round. -/
def disagreeInput : List (String × List (StrategyType × SignalData)) :=
  [("XUSDT", [(StrategyType.rsi, sampleSig StrategyType.rsi SignalType.buy 1000),
              (StrategyType.macd, sampleSig StrategyType.macd SignalType.sell 1000)])]

/-- Handler state for the out-of-order-candle run: one tracked symbol whose
window holds a single candle with open time 100, with the round tracking
already at time 100. -/
def c5State : PHState :=
  { symbols := ["XUSDT"],
    priceData := [("XUSDT", [samplePrice 100])],
    signals := [],
    updatedSymbols := [],
    currentCandleTime := some 100,
    dataframes := [] }

/-- Handler state for the round-reset run: two tracked symbols, a round in
progress at time 100 with one pending signal for each symbol and one symbol
already reported. -/
def c10State : PHState :=
  { symbols := ["XUSDT", "BUSDT"],
    priceData := [("XUSDT", [samplePrice 100, samplePrice 160]),
                  ("BUSDT", [samplePrice 100, samplePrice 160])],
    signals := [("XUSDT", [(StrategyType.rsi, sampleSig StrategyType.rsi SignalType.buy 100)]),
                ("BUSDT", [(StrategyType.macd, sampleSig StrategyType.macd SignalType.sell 100)])],
    updatedSymbols := ["BUSDT"],
    currentCandleTime := some 160,
    dataframes := [] }

/-- System state for the delisting run: two tracked symbols with windows,
a pending signal for the soon-to-be-delisted symbol, and one registered
subscription group covering both symbols' topics. -/
def c6Sys : SysState :=
  { ph := { symbols := ["AUSDT", "YUSDT"],
            priceData := [("AUSDT", [samplePrice 1]), ("YUSDT", [samplePrice 1])],
            signals := [("YUSDT", [(StrategyType.rsi, sampleSig StrategyType.rsi SignalType.buy 1)])],
            updatedSymbols := [],
            currentCandleTime := none,
            dataframes := [(StrategyType.rsi, [("AUSDT", [((1 : Int), sampleRow)]), ("YUSDT", [((1 : Int), sampleRow)])])] },
    subscriptions := [{ topics := ["kline.60.AUSDT", "kline.60.YUSDT"], handlerId := 0 }] }

/-- Three registered topic groups, one topic each, for the reconnect run. -/
def threeGroups : List SubGroup :=
  [{ topics := ["kline.60.AUSDT"], handlerId := 0 },
   { topics := ["kline.60.BUSDT"], handlerId := 1 },
   { topics := ["kline.60.CUSDT"], handlerId := 2 }]

/-! ## Helper lemmas -/

theorem alookup_nil {κ β : Type} [DecidableEq κ] (k : κ) :
    alookup ([] : List (κ × β)) k = none := rfl

theorem alookup_cons {κ β : Type} [DecidableEq κ] (p : κ × β)
    (rest : List (κ × β)) (k : κ) :
    alookup (p :: rest) k = if p.1 = k then some p.2 else alookup rest k := by
  cases p
  rfl

theorem alookup_append {κ β : Type} [DecidableEq κ] (xs ys : List (κ × β))
    (k : κ) : alookup (xs ++ ys) k = (alookup xs k).or (alookup ys k) := by
  induction xs with
  | nil => simp [alookup_nil, Option.or]
  | cons p rest ih =>
    rw [List.cons_append, alookup_cons p, alookup_cons p]
    by_cases hk : p.1 = k
    · simp [hk, Option.or]
    · simp [hk, ih]

theorem alookup_map_replace_self {κ β : Type} [DecidableEq κ]
    (xs : List (κ × β)) (k : κ) (v : β) (h : (alookup xs k).isSome = true) :
    alookup (xs.map (fun p => if p.1 = k then (k, v) else p)) k = some v := by
  induction xs with
  | nil => simp [alookup_nil] at h
  | cons p rest ih =>
    rw [alookup_cons] at h
    by_cases hk : p.1 = k
    · simp [List.map_cons, if_pos hk, alookup_cons]
    · rw [if_neg hk] at h
      simp only [List.map_cons, if_neg hk, alookup_cons, if_neg hk]
      exact ih h

theorem alookup_map_replace_ne {κ β : Type} [DecidableEq κ]
    (xs : List (κ × β)) {k k2 : κ} (v : β) (h : ¬ k2 = k) :
    alookup (xs.map (fun p => if p.1 = k then (k, v) else p)) k2 = alookup xs k2 := by
  induction xs with
  | nil => rfl
  | cons p rest ih =>
    by_cases hk : p.1 = k
    · simp only [List.map_cons, if_pos hk, alookup_cons]
      rw [if_neg (fun hh => h hh.symm), if_neg (by rw [hk]; exact fun hh => h hh.symm)]
      exact ih
    · simp only [List.map_cons, if_neg hk, alookup_cons]
      by_cases hk2 : p.1 = k2
      · simp [hk2]
      · simp [hk2, ih]

theorem alookup_dictSet_self {κ β : Type} [DecidableEq κ] (xs : List (κ × β))
    (k : κ) (v : β) : alookup (dictSet xs k v) k = some v := by
  unfold dictSet
  split
  · exact alookup_map_replace_self xs k v (by assumption)
  · rename_i h
    have hn : alookup xs k = none := by
      cases hx : alookup xs k with
      | none => rfl
      | some w => rw [hx] at h; simp at h
    rw [alookup_append, hn]
    simp [alookup_cons, Option.or]

theorem alookup_dictSet_ne {κ β : Type} [DecidableEq κ] (xs : List (κ × β))
    {k k2 : κ} (v : β) (h : ¬ k2 = k) :
    alookup (dictSet xs k v) k2 = alookup xs k2 := by
  unfold dictSet
  split
  · exact alookup_map_replace_ne xs v h
  · rw [alookup_append]
    have hone : alookup [(k, v)] k2 = none := by
      simp [alookup_cons, alookup_nil]
      exact fun hh => h hh.symm
    rw [hone]
    cases hx : alookup xs k2 <;> simp [Option.or]

theorem aremove_cons {κ β : Type} [DecidableEq κ] (p : κ × β)
    (rest : List (κ × β)) (k : κ) :
    aremove (p :: rest) k =
      if p.1 = k then aremove rest k else p :: aremove rest k := by
  unfold aremove
  rw [List.filter_cons]
  by_cases hk : p.1 = k <;> simp [hk]

theorem alookup_aremove_self {κ β : Type} [DecidableEq κ] (xs : List (κ × β))
    (k : κ) : alookup (aremove xs k) k = none := by
  induction xs with
  | nil => rfl
  | cons p rest ih =>
    rw [aremove_cons]
    by_cases hk : p.1 = k
    · simpa [hk] using ih
    · rw [if_neg hk, alookup_cons, if_neg hk]
      exact ih

theorem alookup_aremove_ne {κ β : Type} [DecidableEq κ] (xs : List (κ × β))
    {k k2 : κ} (h : ¬ k2 = k) : alookup (aremove xs k) k2 = alookup xs k2 := by
  induction xs with
  | nil => rfl
  | cons p rest ih =>
    rw [aremove_cons, alookup_cons]
    by_cases hk : p.1 = k
    · rw [if_pos hk, if_neg (by rw [hk]; exact fun hh => h hh.symm)]
      exact ih
    · rw [if_neg hk, alookup_cons]
      by_cases hk2 : p.1 = k2 <;> simp [hk2, ih]

theorem mem_setAdd {κ : Type} [DecidableEq κ] {xs : List κ} {x y : κ}
    (h : y ∈ setAdd xs x) : y ∈ xs ∨ y = x := by
  unfold setAdd at h
  split at h
  · exact Or.inl h
  · rcases List.mem_append.mp h with h1 | h1
    · exact Or.inl h1
    · exact Or.inr (List.mem_singleton.mp h1)

theorem confidenceWeight_pos (st : StrategyType) : 0 < confidenceWeight st := by
  cases st <;> norm_num [confidenceWeight]

theorem weights_sum_pos (s : SignalData) (rest : List SignalData) :
    0 < ((s :: rest).map (fun sig => confidenceWeight sig.strategy)).sum := by
  apply List.sum_pos
  · intro x hx
    simp only [List.mem_map] at hx
    obtain ⟨sig, _, rfl⟩ := hx
    exact confidenceWeight_pos sig.strategy
  · simp

theorem createAggregatedSignal_nil (ty : SignalType) :
    createAggregatedSignal [] ty = none := rfl

theorem createAggregatedSignal_cons (s : SignalData) (rest : List SignalData)
    (ty : SignalType) :
    createAggregatedSignal (s :: rest) ty =
      some { symbol := (latestByTimestamp s rest).symbol, signal_type := ty,
             confidence := 1, price := (latestByTimestamp s rest).price,
             timestamp := (latestByTimestamp s rest).timestamp,
             supporting_signals := s :: rest, analysis := "" } := by
  have hpos := weights_sum_pos s rest
  simp only [createAggregatedSignal]
  rw [if_neg hpos.ne', div_self hpos.ne']
  rw [if_neg (by norm_num [minConfidenceThreshold])]

theorem length_insertDescConf (a : AggregatedSignal) (l : List AggregatedSignal) :
    (insertDescConf a l).length = l.length + 1 := by
  induction l with
  | nil => rfl
  | cons b rest ih =>
    unfold insertDescConf
    split <;> simp [ih]

theorem length_sortDescConf (l : List AggregatedSignal) :
    (sortDescConf l).length = l.length := by
  induction l with
  | nil => rfl
  | cons a rest ih =>
    unfold sortDescConf
    rw [length_insertDescConf, ih]
    rfl

theorem mem_insertDescConf {a x : AggregatedSignal} {l : List AggregatedSignal}
    (h : x ∈ insertDescConf a l) : x = a ∨ x ∈ l := by
  induction l with
  | nil => simpa [insertDescConf] using h
  | cons b rest ih =>
    unfold insertDescConf at h
    split at h
    · rcases List.mem_cons.mp h with h1 | h1
      · exact Or.inr (List.mem_cons.mpr (Or.inl h1))
      · rcases ih h1 with h2 | h2
        · exact Or.inl h2
        · exact Or.inr (List.mem_cons.mpr (Or.inr h2))
    · rcases List.mem_cons.mp h with h1 | h1
      · exact Or.inl h1
      · exact Or.inr h1

theorem pairwise_insertDescConf {a : AggregatedSignal} {l : List AggregatedSignal}
    (h : List.Pairwise (fun x y => y.confidence ≤ x.confidence) l) :
    List.Pairwise (fun x y => y.confidence ≤ x.confidence) (insertDescConf a l) := by
  induction l with
  | nil => simp [insertDescConf]
  | cons b rest ih =>
    rcases List.pairwise_cons.mp h with ⟨hb, hrest⟩
    unfold insertDescConf
    split
    · rename_i hlt
      refine List.pairwise_cons.mpr ⟨?_, ih hrest⟩
      intro x hx
      rcases mem_insertDescConf hx with h1 | h1
      · rw [h1]; exact le_of_lt hlt
      · exact hb x h1
    · rename_i hge
      refine List.pairwise_cons.mpr ⟨?_, h⟩
      intro x hx
      rcases List.mem_cons.mp hx with h1 | h1
      · rw [h1]; exact le_of_not_lt hge
      · exact le_trans (hb x h1) (le_of_not_lt hge)

theorem pairwise_sortDescConf (l : List AggregatedSignal) :
    List.Pairwise (fun x y => y.confidence ≤ x.confidence) (sortDescConf l) := by
  induction l with
  | nil => simp [sortDescConf]
  | cons a rest ih =>
    unfold sortDescConf
    exact pairwise_insertDescConf ih

theorem aggregateSymbol_single_buy (t : StrategyType) (sd : SignalData)
    (h : sd.signal_type = SignalType.buy) :
    (aggregateSymbol [(t, sd)]).length = 1 := by
  unfold aggregateSymbol
  simp [h, createAggregatedSignal_cons, createAggregatedSignal_nil]

theorem aggregateCore_manyBuyInput (n : Nat) :
    (aggregateCore (manyBuyInput n)).length = n := by
  induction n with
  | zero => rfl
  | succ n ih =>
    unfold manyBuyInput aggregateCore
    rw [List.length_append, ih, aggregateSymbol_single_buy _ _ rfl]
    omega

theorem alookup_checkSignals_ne (strats : List StrategyType)
    (gen : StrategyType → String → PriceData → Option Signal)
    (sigs : List (String × List (StrategyType × SignalData)))
    (symbol : String) (latest : PriceData) {sym2 : String}
    (h : ¬ sym2 = symbol) :
    alookup (checkSignals strats gen sigs symbol latest) sym2 = alookup sigs sym2 := by
  induction strats generalizing sigs with
  | nil => rfl
  | cons st rest ih =>
    unfold checkSignals
    rw [List.foldl_cons]
    cases hg : gen st symbol latest with
    | none =>
      have := ih sigs
      unfold checkSignals at this
      simpa [hg] using this
    | some sig =>
      have := ih (dictSet sigs symbol
        (dictSet ((alookup sigs symbol).getD []) st
          { symbol := symbol, strategy := st, signal_type := sig.type,
            value := sig.value, timestamp := latest.timestamp, price := latest.close }))
      unfold checkSignals at this
      simp only [hg]
      rw [this, alookup_dictSet_ne _ _ h]

theorem roundReset_priceData (s : PHState) (t : Int) :
    (roundReset s t).priceData = s.priceData := by
  unfold roundReset
  split <;> rfl

theorem roundReset_dataframes (s : PHState) (t : Int) :
    (roundReset s t).dataframes = s.dataframes := by
  unfold roundReset
  split <;> rfl

theorem roundReset_symbols (s : PHState) (t : Int) :
    (roundReset s t).symbols = s.symbols := by
  unfold roundReset
  split <;> rfl

theorem roundReset_of_ne {s : PHState} {t : Int}
    (h : ¬ s.currentCandleTime = some t) :
    roundReset s t = { s with currentCandleTime := some t,
                              updatedSymbols := [], signals := [] } := by
  unfold roundReset
  rw [if_pos h]

theorem appendPrice_signals (s : PHState) (symbol : String) (p : PriceData) :
    (appendPrice s symbol p).signals = s.signals := by
  unfold appendPrice
  split <;> rfl

theorem appendPrice_updatedSymbols (s : PHState) (symbol : String) (p : PriceData) :
    (appendPrice s symbol p).updatedSymbols = s.updatedSymbols := by
  unfold appendPrice
  split <;> rfl

theorem appendPrice_symbols (s : PHState) (symbol : String) (p : PriceData) :
    (appendPrice s symbol p).symbols = s.symbols := by
  unfold appendPrice
  split <;> rfl

theorem appendPrice_currentCandleTime (s : PHState) (symbol : String) (p : PriceData) :
    (appendPrice s symbol p).currentCandleTime = s.currentCandleTime := by
  unfold appendPrice
  split <;> rfl

theorem appendPrice_priceData_of_some {s : PHState} {symbol : String}
    {d : List PriceData} (p : PriceData)
    (h : alookup s.priceData symbol = some d) :
    alookup (appendPrice s symbol p).priceData symbol
      = some (dequeAppend 150 d p) := by
  unfold appendPrice
  rw [h]
  exact alookup_dictSet_self _ _ _

theorem updateStrategyFrames_priceData (s : PHState) (p : PriceData) (symbol : String) :
    (updateStrategyFrames s p symbol).priceData = s.priceData := rfl

theorem updateStrategyFrames_signals (s : PHState) (p : PriceData) (symbol : String) :
    (updateStrategyFrames s p symbol).signals = s.signals := rfl

theorem updateStrategyFrames_updatedSymbols (s : PHState) (p : PriceData) (symbol : String) :
    (updateStrategyFrames s p symbol).updatedSymbols = s.updatedSymbols := rfl

theorem updateStrategyFrames_symbols (s : PHState) (p : PriceData) (symbol : String) :
    (updateStrategyFrames s p symbol).symbols = s.symbols := rfl

theorem updateStrategyFrames_currentCandleTime (s : PHState) (p : PriceData) (symbol : String) :
    (updateStrategyFrames s p symbol).currentCandleTime = s.currentCandleTime := rfl

theorem runChecks_priceData (strats : List StrategyType)
    (gen : StrategyType → String → PriceData → Option Signal)
    (s : PHState) (symbol : String) (d : List PriceData) :
    (runChecks strats gen s symbol d).priceData = s.priceData := by
  unfold runChecks
  split
  · split <;> rfl
  · rfl

theorem runChecks_currentCandleTime (strats : List StrategyType)
    (gen : StrategyType → String → PriceData → Option Signal)
    (s : PHState) (symbol : String) (d : List PriceData) :
    (runChecks strats gen s symbol d).currentCandleTime = s.currentCandleTime := by
  unfold runChecks
  split
  · split <;> rfl
  · rfl

theorem runChecks_updatedSymbols (strats : List StrategyType)
    (gen : StrategyType → String → PriceData → Option Signal)
    (s : PHState) (symbol : String) (d : List PriceData) :
    (runChecks strats gen s symbol d).updatedSymbols = s.updatedSymbols := by
  unfold runChecks
  split
  · split <;> rfl
  · rfl

theorem runChecks_symbols (strats : List StrategyType)
    (gen : StrategyType → String → PriceData → Option Signal)
    (s : PHState) (symbol : String) (d : List PriceData) :
    (runChecks strats gen s symbol d).symbols = s.symbols := by
  unfold runChecks
  split
  · split <;> rfl
  · rfl

theorem runChecks_signals_ne (strats : List StrategyType)
    (gen : StrategyType → String → PriceData → Option Signal)
    (s : PHState) (symbol : String) (d : List PriceData) {sym2 : String}
    (h : ¬ sym2 = symbol) :
    alookup (runChecks strats gen s symbol d).signals sym2
      = alookup s.signals sym2 := by
  unfold runChecks
  split
  · split
    · exact alookup_checkSignals_ne _ _ _ _ _ h
    · rfl
  · rfl

theorem emitStep_priceData (s4 : PHState) (symbol : String) :
    ((emitStep s4 symbol).1).priceData = s4.priceData := by
  simp only [emitStep]
  split <;> rfl

theorem emitStep_currentCandleTime (s4 : PHState) (symbol : String) :
    ((emitStep s4 symbol).1).currentCandleTime = s4.currentCandleTime := by
  simp only [emitStep]
  split <;> rfl

theorem emitStep_signals (s4 : PHState) (symbol : String) :
    ((emitStep s4 symbol).1).signals = s4.signals := by
  simp only [emitStep]
  split <;> rfl

theorem emitStep_updated_subset {s4 : PHState} {symbol x : String}
    (hx : x ∈ ((emitStep s4 symbol).1).updatedSymbols) :
    x ∈ s4.updatedSymbols ∨ x = symbol := by
  simp only [emitStep] at hx
  split at hx
  · simp at hx
  · exact mem_setAdd hx

theorem signalsAndEmit_priceData (strats : List StrategyType)
    (gen : StrategyType → String → PriceData → Option Signal)
    (s : PHState) (symbol : String) :
    ((signalsAndEmit strats gen s symbol).1).priceData = s.priceData := by
  unfold signalsAndEmit
  split
  · rfl
  · rw [emitStep_priceData, runChecks_priceData]

theorem signalsAndEmit_currentCandleTime (strats : List StrategyType)
    (gen : StrategyType → String → PriceData → Option Signal)
    (s : PHState) (symbol : String) :
    ((signalsAndEmit strats gen s symbol).1).currentCandleTime = s.currentCandleTime := by
  unfold signalsAndEmit
  split
  · rfl
  · rw [emitStep_currentCandleTime, runChecks_currentCandleTime]

theorem signalsAndEmit_signals_ne (strats : List StrategyType)
    (gen : StrategyType → String → PriceData → Option Signal)
    (s : PHState) (symbol : String) {sym2 : String} (h : ¬ sym2 = symbol) :
    alookup ((signalsAndEmit strats gen s symbol).1).signals sym2
      = alookup s.signals sym2 := by
  unfold signalsAndEmit
  split
  · rfl
  · rw [emitStep_signals, runChecks_signals_ne _ _ _ _ _ h]

theorem signalsAndEmit_updated_subset (strats : List StrategyType)
    (gen : StrategyType → String → PriceData → Option Signal)
    (s : PHState) (symbol : String) {x : String}
    (hx : x ∈ ((signalsAndEmit strats gen s symbol).1).updatedSymbols) :
    x ∈ s.updatedSymbols ∨ x = symbol := by
  unfold signalsAndEmit at hx
  split at hx
  · exact Or.inl hx
  · rcases emitStep_updated_subset hx with h1 | h1
    · rw [runChecks_updatedSymbols] at h1
      exact Or.inl h1
    · exact Or.inr h1

theorem handlePriceUpdate_cons {strats : List StrategyType}
    {gen : StrategyType → String → PriceData → Option Signal}
    {s : PHState} {candle : Candle} {tail : List Candle} {symbol : String}
    (hsym : symbol ∈ s.symbols) (hconf : candle.confirm = true) :
    handlePriceUpdate strats gen s (candle :: tail) symbol
      = signalsAndEmit strats gen
          (updateStrategyFrames
            (appendPrice (roundReset s candle.start) symbol (newPriceOf symbol candle))
            (newPriceOf symbol candle) symbol)
          symbol := by
  unfold handlePriceUpdate
  rw [if_neg (not_not_intro hsym)]
  dsimp only
  rw [if_neg (by simp [hconf])]

theorem dequeAppend_length_le {α : Type} (cap : Nat) (xs : List α) (x : α) :
    (dequeAppend cap xs x).length ≤ cap := by
  simp only [dequeAppend, List.length_drop]
  omega

theorem dequeInit_length_le {α : Type} (cap : Nat) (xs : List α) :
    (dequeInit cap xs).length ≤ cap := by
  simp only [dequeInit, List.length_drop]
  omega

theorem foldl_dequeAppend_length_le {α : Type} (cap : Nat) (updates : List α)
    (init : List α) (h : init.length ≤ cap) :
    (updates.foldl (dequeAppend cap) init).length ≤ cap := by
  induction updates generalizing init with
  | nil => simpa using h
  | cons u rest ih => exact ih _ (dequeAppend_length_le cap init u)

theorem dequeAppend_full {α : Type} (xs : List α) (x : α) (h : xs.length = 150) :
    dequeAppend 150 xs x = xs.tail ++ [x] := by
  simp only [dequeAppend]
  have hl : (xs ++ [x]).length - 150 = 1 := by simp [h]
  rw [hl]
  cases xs with
  | nil => simp at h
  | cons y ys => simp

theorem filter_isSend_map_route (topic : String) (l : List SubGroup) :
    ((l.map (fun g => WsAction.route topic g.handlerId)).filter isSendAction) = [] := by
  induction l with
  | nil => rfl
  | cons g rest ih => simp [List.filter_cons, isSendAction, ih]

theorem handleMessage_no_sends (subs : List SubGroup) (m : InMsg) :
    (handleMessage subs m).filter isSendAction = [] := by
  cases m with
  | status => rfl
  | malformed => rfl
  | dataMsg topic => exact filter_isSend_map_route topic _

theorem checkSymbolsPass_single_delist {s : PHState} {current : List String}
    (backfill : String → Option (List PriceData)) {y : String}
    (hnew : current.filter (fun c => ¬ c ∈ s.symbols) = [])
    (hdel : s.symbols.filter (fun c => ¬ c ∈ current) = [y]) :
    checkSymbolsPass s current backfill =
      { s with symbols := s.symbols.filter (fun x => ¬ x = y),
               priceData := aremove s.priceData y,
               signals := aremove s.signals y,
               dataframes := s.dataframes.map (fun inst => (inst.1, aremove inst.2 y)) } := by
  simp only [checkSymbolsPass]
  rw [hnew, hdel]
  rfl

theorem length_insertAscKey (p : Int × Row) (l : List (Int × Row)) :
    (insertAscKey p l).length = l.length + 1 := by
  induction l with
  | nil => rfl
  | cons q rest ih =>
    unfold insertAscKey
    split <;> simp [ih]

theorem length_sortAscKey (l : List (Int × Row)) :
    (sortAscKey l).length = l.length := by
  induction l with
  | nil => rfl
  | cons p rest ih =>
    unfold sortAscKey
    rw [length_insertAscKey, ih]
    rfl

theorem dedupKeepLast_foldl_length (xs : List (Int × Row)) (acc : List (Int × Row)) :
    (xs.foldl (fun acc p => acc.filter (fun q => ¬ q.1 = p.1) ++ [p]) acc).length
      ≤ acc.length + xs.length := by
  induction xs generalizing acc with
  | nil => simp
  | cons p rest ih =>
    rw [List.foldl_cons]
    calc (rest.foldl (fun acc p => acc.filter (fun q => ¬ q.1 = p.1) ++ [p])
            (acc.filter (fun q => ¬ q.1 = p.1) ++ [p])).length
        ≤ (acc.filter (fun q => ¬ q.1 = p.1) ++ [p]).length + rest.length := ih _
      _ ≤ acc.length + (p :: rest).length := by
          have hf := List.length_filter_le (fun q => decide (¬ q.1 = p.1)) acc
          simp only [List.length_append, List.length_cons, List.length_nil]
          omega

theorem dedupKeepLast_length_le (xs : List (Int × Row)) :
    (dedupKeepLast xs).length ≤ xs.length := by
  have h := dedupKeepLast_foldl_length xs []
  simpa [dedupKeepLast] using h

theorem trimDedup_length_le (df2 : List (Int × Row)) (window : Nat)
    (h : df2.length ≤ window) :
    (if hasDupKeys df2 = true then sortAscKey (dedupKeepLast df2) else df2).length
      ≤ window := by
  split
  · calc (sortAscKey (dedupKeepLast df2)).length
        = (dedupKeepLast df2).length := length_sortAscKey _
      _ ≤ df2.length := dedupKeepLast_length_le _
      _ ≤ window := h
  · exact h

theorem updateFrame_length_le (window : Nat) (df : List (Int × Row))
    (t : Int) (r : Row) (hw : 1 ≤ window) :
    (updateFrame window df t r).length ≤ window := by
  unfold updateFrame
  apply trimDedup_length_le
  split
  · rename_i hle
    simp only [List.length_append, List.length_drop, List.length_cons, List.length_nil]
    omega
  · rename_i hgt
    simp only [List.length_append, List.length_cons, List.length_nil]
    omega

/-! ## Claim theorems -/

/-- C1: the claim states the combined confidence of an `AggregatedSignal` is
the weighted mean of the member signals' confidences, with sub-threshold
groups discarded.  The code instead accumulates `weighted_confidence +=
weight` (member signals carry no confidence field at all), so for every
non-empty same-direction group `_create_aggregated_signal` returns a signal
whose combined confidence is exactly `total_weight / total_weight = 1.0`, and
the `confidence < 0.7` discard branch can never fire. -/
theorem c1_combined_confidence_always_one (s : SignalData)
    (rest : List SignalData) (ty : SignalType) :
    ∃ a, createAggregatedSignal (s :: rest) ty = some a ∧ a.confidence = 1 :=
  ⟨_, createAggregatedSignal_cons s rest ty, rfl⟩

/-- C3: the claim states that an RSI strategy fed 20 candles producing an
oscillator value of 18 returns a BUY signal with confidence above the base
threshold.  In the code, `SignalStrategy.process` calls
`self.analyze_market(df, indicator_value)` with two positional arguments while
`RSIStrategy.analyze_market` accepts exactly one (`rsi_values`), raising
`TypeError` before the body runs; the `except` in `process` converts it to
`None` (and even the body itself would construct `Signal` with four arguments
against the three-field dataclass).  Hence the RSI processing path returns
absent for every indicator value — in particular for `(18, 20)`. -/
theorem c3_rsi_process_always_absent :
    rsiProcessFromIndicator (some (18, 20)) = none
  ∧ ∀ ind, rsiProcessFromIndicator ind = none := by
  constructor
  · rfl
  · intro ind
    cases ind with
    | none => rfl
    | some rv => rfl

/-- C7 counterexample: the claim states the list returned by
`aggregate_signals` never exceeds a maximum batch size.  The code performs no
truncation: for any candidate bound `B`, an input with `B + 1` symbols each
carrying one BUY signal yields `B + 1` aggregated signals (each group's
combined confidence is 1.0 ≥ 0.7, so none is discarded). -/
theorem c7_counterexample :
    ¬ ∃ B : Nat, ∀ signals : List (String × List (StrategyType × SignalData)),
        (aggregateSignals signals).length ≤ B := by
  rintro ⟨B, hB⟩
  have h := hB (manyBuyInput (B + 1))
  unfold aggregateSignals at h
  rw [length_sortDescConf, aggregateCore_manyBuyInput] at h
  omega

/-- C7 amended: the list returned by `aggregate_signals` is sorted by combined
confidence in descending order; no truncation is applied, so its length equals
the number of surviving direction groups and is unbounded in the input size. -/
theorem c7_amended_sorted_descending
    (signals : List (String × List (StrategyType × SignalData))) :
    List.Pairwise (fun a b : AggregatedSignal => b.confidence ≤ a.confidence)
      (aggregateSignals signals) := by
  unfold aggregateSignals
  exact pairwise_sortDescConf _

/-- C8: after the initial backfill (a deque built with `maxlen = 150`) and any
sequence of confirmed-candle appends, the rolling window's length never
exceeds the fixed capacity 150, an append at capacity evicts the oldest
entry, and the per-strategy DataFrame update of `generate_signals` likewise
keeps each frame within its window capacity. -/
theorem c8_window_capacity_bound :
    (∀ (backfill updates : List PriceData),
        (updates.foldl (dequeAppend 150) (dequeInit 150 backfill)).length ≤ 150)
  ∧ (∀ (xs : List PriceData) (x : PriceData), xs.length = 150 →
        dequeAppend 150 xs x = xs.tail ++ [x])
  ∧ (∀ (window : Nat) (df : List (Int × Row)) (t : Int) (r : Row), 1 ≤ window →
        (updateFrame window df t r).length ≤ window) := by
  refine ⟨?_, ?_, ?_⟩
  · intro backfill updates
    exact foldl_dequeAppend_length_le 150 updates _ (dequeInit_length_le 150 backfill)
  · intro xs x h
    exact dequeAppend_full xs x h
  · intro window df t r hw
    exact updateFrame_length_le window df t r hw

/-- Witness for C8 at concrete inputs: a backfill of one candle followed by
200 appends stays within capacity, and an append to a full 150-entry window
drops the oldest entry. -/
theorem c8_window_capacity_bound_witness :
    ((List.replicate 200 (samplePrice 1)).foldl (dequeAppend 150)
        (dequeInit 150 [samplePrice 0])).length ≤ 150
  ∧ dequeAppend 150 (List.replicate 150 (samplePrice 1)) (samplePrice 2)
      = (List.replicate 150 (samplePrice 1)).tail ++ [samplePrice 2]
  ∧ (updateFrame 3 [(1, sampleRow), (2, sampleRow), (3, sampleRow)] 4 sampleRow).length ≤ 3 :=
  ⟨c8_window_capacity_bound.1 [samplePrice 0] (List.replicate 200 (samplePrice 1)),
   c8_window_capacity_bound.2.1 (List.replicate 150 (samplePrice 1)) (samplePrice 2)
     (by simp),
   c8_window_capacity_bound.2.2 3 [(1, sampleRow), (2, sampleRow), (3, sampleRow)]
     4 sampleRow (by decide)⟩

/-- C9: for any strategy (any `min_candles`, window capacity, and fallible
`process` body), one `generate_signals` step returns absent whenever the
stored frame after the update holds fewer than `min_candles` rows, and
converts any exception of the processing body into absent rather than
propagating it. -/
theorem c9_generate_absent_on_insufficient_data (min_candles window : Nat)
    (proc : List (Int × Row) → Except PyExc (Option Signal))
    (stored : Option (List (Int × Row))) (t : Int) (r : Row) :
    (((generateSignal min_candles window proc stored t r).1).length < min_candles →
        (generateSignal min_candles window proc stored t r).2 = none)
  ∧ (∀ e, proc ((generateSignal min_candles window proc stored t r).1) = Except.error e →
        (generateSignal min_candles window proc stored t r).2 = none) := by
  have hfst : (generateSignal min_candles window proc stored t r).1
      = generatedFrame window stored t r := by
    unfold generateSignal
    dsimp only
    split
    · split <;> rfl
    · rfl
  constructor
  · intro hlt
    rw [hfst] at hlt
    unfold generateSignal
    dsimp only
    rw [if_neg (not_le.mpr hlt)]
  · intro e he
    rw [hfst] at he
    unfold generateSignal
    dsimp only
    split
    · rw [he]
    · rfl

/-- Witness for C9 at concrete inputs: a fresh symbol frame (one row) with
`min_candles = 15` yields absent, and an always-raising process body with
`min_candles = 1` also yields absent. -/
theorem c9_generate_absent_on_insufficient_data_witness :
    (generateSignal 15 100 (fun _ => Except.ok
        (some (Signal.mk "rsi" SignalType.buy (SigValue.num 18)))) none 0 sampleRow).2 = none
  ∧ (generateSignal 1 100 (fun _ => Except.error PyExc.typeError)
        none 0 sampleRow).2 = none :=
  ⟨(c9_generate_absent_on_insufficient_data 15 100 _ none 0 sampleRow).1 (by decide),
   (c9_generate_absent_on_insufficient_data 1 100 _ none 0 sampleRow).2
     PyExc.typeError rfl⟩

theorem aggregateSignals_buy_sell (sym : String) (t1 t2 : StrategyType)
    (b sl : SignalData) (hb : b.signal_type = SignalType.buy)
    (hs : sl.signal_type = SignalType.sell) :
    aggregateSignals [(sym, [(t1, b), (t2, sl)])]
      = [{ symbol := b.symbol, signal_type := SignalType.buy, confidence := 1,
           price := b.price, timestamp := b.timestamp,
           supporting_signals := [b], analysis := "" },
         { symbol := sl.symbol, signal_type := SignalType.sell, confidence := 1,
           price := sl.price, timestamp := sl.timestamp,
           supporting_signals := [sl], analysis := "" }] := by
  have h1 : (([(t1, b), (t2, sl)].filter
      (fun p => p.2.signal_type = SignalType.buy)).map Prod.snd) = [b] := by
    simp [List.filter_cons, hb, hs]
  have h2 : (([(t1, b), (t2, sl)].filter
      (fun p => ¬ p.2.signal_type = SignalType.buy)).map Prod.snd) = [sl] := by
    simp [List.filter_cons, hb, hs]
  simp only [aggregateSignals, aggregateCore, aggregateSymbol, h1, h2,
    createAggregatedSignal_cons, latestByTimestamp, List.foldl_nil,
    List.append_nil, sortDescConf, insertDescConf]
  norm_num

/-- C2 counterexample: the claim states that when both direction groups of a
symbol survive the threshold only the higher-confidence group is kept, so the
one-BUY/one-SELL scenario emits exactly one `AggregatedSignal`.  The code has
no such exclusion: on one RSI BUY and one MACD SELL for the same symbol,
`aggregate_signals` emits two aggregated signals — a BUY and a SELL (each with
combined confidence 1.0). -/
theorem c2_counterexample :
    ¬ (aggregateSignals disagreeInput).length = 1
  ∧ (aggregateSignals disagreeInput).map (fun a => a.signal_type)
      = [SignalType.buy, SignalType.sell] := by
  have h := aggregateSignals_buy_sell "XUSDT" StrategyType.rsi StrategyType.macd
    (sampleSig StrategyType.rsi SignalType.buy 1000)
    (sampleSig StrategyType.macd SignalType.sell 1000) rfl rfl
  unfold disagreeInput
  rw [h]
  constructor
  · decide
  · rfl

/-- C2 amended: `aggregate_signals` emits one `AggregatedSignal` per
non-empty direction group (both have combined confidence 1.0 ≥ 0.7), with no
mutual exclusion: a symbol with one BUY and one SELL signal produces two
aggregated signals, the BUY one first. -/
theorem c2_both_direction_groups_emitted (sym : String) (t1 t2 : StrategyType)
    (b sl : SignalData) (hb : b.signal_type = SignalType.buy)
    (hs : sl.signal_type = SignalType.sell) :
    (aggregateSignals [(sym, [(t1, b), (t2, sl)])]).map (fun a => a.signal_type)
      = [SignalType.buy, SignalType.sell] := by
  rw [aggregateSignals_buy_sell sym t1 t2 b sl hb hs]
  rfl

/-- Witness for C2 amended at a concrete input: a Bollinger BUY and an
Ichimoku SELL for one symbol yield the two-element BUY-then-SELL batch. -/
theorem c2_both_direction_groups_emitted_witness :
    (aggregateSignals [("YUSDT",
        [(StrategyType.bollinger, sampleSig StrategyType.bollinger SignalType.buy 5),
         (StrategyType.ichimoku, sampleSig StrategyType.ichimoku SignalType.sell 6)])]).map
      (fun a => a.signal_type) = [SignalType.buy, SignalType.sell] :=
  c2_both_direction_groups_emitted "YUSDT" StrategyType.bollinger StrategyType.ichimoku
    (sampleSig StrategyType.bollinger SignalType.buy 5)
    (sampleSig StrategyType.ichimoku SignalType.sell 6) rfl rfl

/-- C4 counterexample: the claim states that after a reconnect with 3 active
topic groups, 3 subscribe control frames are sent before any data frame is
routed.  In the code, the reconnect path of `_process_messages` sends nothing
before entering the message loop: with 3 registered groups and one incoming
data frame, the frame is routed with zero subscribe frames preceding it. -/
theorem c4_counterexample :
    (reconnectIteration threeGroups [InMsg.dataMsg "kline.60.AUSDT"]).any isRouteAction = true
  ∧ ¬ (sendsBeforeFirstRoute
        (reconnectIteration threeGroups [InMsg.dataMsg "kline.60.AUSDT"])).length = 3 := by
  constructor <;> decide

/-- C4 amended: upon reconnecting, the transport re-enters the message loop
without sending any subscribe control frame; the registered topic groups are
retained client-side only for routing, so data frames are dispatched (to
whichever handlers match) with no resubscription having occurred. -/
theorem c4_no_resubscribe_on_reconnect (subs : List SubGroup)
    (incoming : List InMsg) :
    (reconnectIteration subs incoming).filter isSendAction = [] := by
  unfold reconnectIteration reconnectSends
  rw [List.nil_append]
  induction incoming with
  | nil => rfl
  | cons m rest ih =>
    rw [List.flatMap_cons, List.filter_append, handleMessage_no_sends, ih]
    rfl

/-- C5 counterexample: the claim states that appending a candle whose
open time is less than or equal to the stored maximum leaves the window
unchanged.  In the code there is no such check: re-delivering a confirmed
candle with the same start time 100 as the stored maximum appends it, giving
a two-entry window with duplicate open time. -/
theorem c5_counterexample :
    alookup ((handlePriceUpdate [] genNone c5State [sampleCandle 100] "XUSDT").1).priceData "XUSDT"
        = some [samplePrice 100, samplePrice 100]
  ∧ ¬ ((handlePriceUpdate [] genNone c5State [sampleCandle 100] "XUSDT").1).priceData
        = c5State.priceData := by
  constructor <;> decide

/-- C5 amended: the confirmed-candle update path never rejects on open time:
for a tracked symbol with a stored deque, the incoming candle is appended
unconditionally (with eviction beyond capacity 150), so open time need not be
strictly increasing within a window; a differing start time only resets the
round tracking. -/
theorem c5_append_is_unconditional (strats : List StrategyType)
    (gen : StrategyType → String → PriceData → Option Signal)
    (s : PHState) (candle : Candle) (tail : List Candle) (symbol : String)
    (d : List PriceData) (hsym : symbol ∈ s.symbols)
    (hconf : candle.confirm = true)
    (hd : alookup s.priceData symbol = some d) :
    alookup ((handlePriceUpdate strats gen s (candle :: tail) symbol).1).priceData symbol
      = some (dequeAppend 150 d (newPriceOf symbol candle)) := by
  rw [handlePriceUpdate_cons hsym hconf, signalsAndEmit_priceData,
    updateStrategyFrames_priceData]
  exact appendPrice_priceData_of_some _ (by rw [roundReset_priceData]; exact hd)

/-- Witness for C5 amended at a concrete input: the duplicate-time candle of
the counterexample state is appended to the stored window. -/
theorem c5_append_is_unconditional_witness :
    alookup ((handlePriceUpdate [] genNone c5State [sampleCandle 100] "XUSDT").1).priceData "XUSDT"
      = some (dequeAppend 150 [samplePrice 100] (newPriceOf "XUSDT" (sampleCandle 100))) :=
  c5_append_is_unconditional [] genNone c5State (sampleCandle 100) [] "XUSDT"
    [samplePrice 100] (by decide) rfl (by decide)

/-- C10: whenever a confirmed candle for a tracked symbol arrives with a start
time different from the tracked round time — including a strictly older one —
the handler abandons the round before processing: afterwards no pending signal
of any other symbol remains, the updated-symbol set holds at most the incoming
symbol, and the tracked round time is the incoming candle's start time. -/
theorem c10_differing_time_abandons_round (strats : List StrategyType)
    (gen : StrategyType → String → PriceData → Option Signal)
    (s : PHState) (candle : Candle) (tail : List Candle) (symbol : String)
    (hsym : symbol ∈ s.symbols) (hconf : candle.confirm = true)
    (ht : ¬ s.currentCandleTime = some candle.start) :
    (∀ sym2, ¬ sym2 = symbol →
        alookup ((handlePriceUpdate strats gen s (candle :: tail) symbol).1).signals sym2 = none)
  ∧ (∀ x ∈ ((handlePriceUpdate strats gen s (candle :: tail) symbol).1).updatedSymbols,
        x = symbol)
  ∧ ((handlePriceUpdate strats gen s (candle :: tail) symbol).1).currentCandleTime
      = some candle.start := by
  rw [handlePriceUpdate_cons hsym hconf, roundReset_of_ne ht]
  refine ⟨?_, ?_, ?_⟩
  · intro sym2 hne
    rw [signalsAndEmit_signals_ne _ _ _ _ hne, updateStrategyFrames_signals,
      appendPrice_signals]
    rfl
  · intro x hx
    rcases signalsAndEmit_updated_subset _ _ _ _ hx with h2 | h2
    · rw [updateStrategyFrames_updatedSymbols, appendPrice_updatedSymbols] at h2
      simp at h2
    · exact h2
  · rw [signalsAndEmit_currentCandleTime, updateStrategyFrames_currentCandleTime,
      appendPrice_currentCandleTime]

/-- Witness for C10 at a concrete input: with a round in progress at time 160
(one symbol reported, pending signals for both symbols), a confirmed candle
for time 200 clears the other symbol's pending signal and retracks to 200. -/
theorem c10_differing_time_abandons_round_witness :
    alookup ((handlePriceUpdate [] genNone c10State [sampleCandle 200] "XUSDT").1).signals "BUSDT" = none
  ∧ ((handlePriceUpdate [] genNone c10State [sampleCandle 200] "XUSDT").1).currentCandleTime
      = some 200 :=
  ⟨(c10_differing_time_abandons_round [] genNone c10State (sampleCandle 200) [] "XUSDT"
      (by decide) rfl (by decide)).1 "BUSDT" (by decide),
   (c10_differing_time_abandons_round [] genNone c10State (sampleCandle 200) [] "XUSDT"
      (by decide) rfl (by decide)).2.2⟩

/-- C6 counterexample: the claim states a delisted symbol's subscriptions are
removed by reconciliation.  `_check_symbols` never touches the WebSocket
client (the handler holds no reference to it): after a pass that delists
"YUSDT", the subscription group carrying topic "kline.60.YUSDT" is still
registered, although the symbol's window and pending signals are gone. -/
theorem c6_counterexample :
    (⟨["kline.60.AUSDT", "kline.60.YUSDT"], 0⟩ : SubGroup)
        ∈ (checkSymbolsSys c6Sys ["AUSDT"] (fun _ => none)).subscriptions
  ∧ alookup (checkSymbolsSys c6Sys ["AUSDT"] (fun _ => none)).ph.priceData "YUSDT" = none
  ∧ alookup (checkSymbolsSys c6Sys ["AUSDT"] (fun _ => none)).ph.signals "YUSDT" = none := by
  refine ⟨?_, ?_, ?_⟩ <;> decide

/-- C6 amended: when reconciliation finds no new listing and exactly one
delisted symbol, it removes that symbol's rolling window, pending signals and
per-strategy DataFrames and drops it from the tracked set (so subsequent
round completion counts only the remaining symbols, and its updates are
ignored); the transport's subscriptions are left untouched, the in-progress
round's updated set is not pruned, and all other symbols' state is
unchanged. -/
theorem c6_delist_removes_state_not_subscriptions (s : PHState)
    (subs : List SubGroup) (current : List String)
    (backfill : String → Option (List PriceData)) (y : String)
    (hnew : current.filter (fun c => ¬ c ∈ s.symbols) = [])
    (hdel : s.symbols.filter (fun c => ¬ c ∈ current) = [y]) :
    (checkSymbolsSys ⟨s, subs⟩ current backfill).subscriptions = subs
  ∧ alookup (checkSymbolsSys ⟨s, subs⟩ current backfill).ph.priceData y = none
  ∧ alookup (checkSymbolsSys ⟨s, subs⟩ current backfill).ph.signals y = none
  ∧ (checkSymbolsSys ⟨s, subs⟩ current backfill).ph.dataframes
      = s.dataframes.map (fun inst => (inst.1, aremove inst.2 y))
  ∧ (checkSymbolsSys ⟨s, subs⟩ current backfill).ph.symbols
      = s.symbols.filter (fun x => ¬ x = y)
  ∧ (checkSymbolsSys ⟨s, subs⟩ current backfill).ph.updatedSymbols = s.updatedSymbols
  ∧ (checkSymbolsSys ⟨s, subs⟩ current backfill).ph.currentCandleTime = s.currentCandleTime
  ∧ ∀ x, ¬ x = y →
      alookup (checkSymbolsSys ⟨s, subs⟩ current backfill).ph.priceData x
          = alookup s.priceData x
      ∧ alookup (checkSymbolsSys ⟨s, subs⟩ current backfill).ph.signals x
          = alookup s.signals x := by
  have hph : (checkSymbolsSys ⟨s, subs⟩ current backfill).ph
      = { s with symbols := s.symbols.filter (fun x => ¬ x = y),
                 priceData := aremove s.priceData y,
                 signals := aremove s.signals y,
                 dataframes := s.dataframes.map (fun inst => (inst.1, aremove inst.2 y)) } :=
    checkSymbolsPass_single_delist backfill hnew hdel
  refine ⟨rfl, ?_, ?_, ?_, ?_, ?_, ?_, ?_⟩
  · rw [hph]
    exact alookup_aremove_self _ _
  · rw [hph]
    exact alookup_aremove_self _ _
  · rw [hph]
  · rw [hph]
  · rw [hph]
  · rw [hph]
  · intro x hx
    rw [hph]
    exact ⟨alookup_aremove_ne _ hx, alookup_aremove_ne _ hx⟩

/-- Witness for C6 amended at a concrete input: delisting "YUSDT" from the
two-symbol system removes its window while keeping the subscription list and
the other symbol's window intact. -/
theorem c6_delist_removes_state_not_subscriptions_witness :
    (checkSymbolsSys ⟨c6Sys.ph, c6Sys.subscriptions⟩ ["AUSDT"] (fun _ => none)).subscriptions
        = c6Sys.subscriptions
  ∧ alookup (checkSymbolsSys ⟨c6Sys.ph, c6Sys.subscriptions⟩ ["AUSDT"]
        (fun _ => none)).ph.priceData "YUSDT" = none
  ∧ alookup (checkSymbolsSys ⟨c6Sys.ph, c6Sys.subscriptions⟩ ["AUSDT"]
        (fun _ => none)).ph.priceData "AUSDT" = alookup c6Sys.ph.priceData "AUSDT" :=
  have h := c6_delist_removes_state_not_subscriptions c6Sys.ph c6Sys.subscriptions
    ["AUSDT"] (fun _ => none) "YUSDT" (by decide) (by decide)
  ⟨h.1, h.2.1, (h.2.2.2.2.2.2.2 "AUSDT" (by decide)).1⟩
